import Mathlib

/-!
Shallow embedding of the block-header and certificate core of the
jormungandr mockchain (src/chain-impl-mockchain/src/block/header.rs and
src/chain-impl-mockchain/src/certificate.rs).

Bytes are modelled as `List Nat` (each entry intended `< 256`); multi-byte
integers are written big-endian, mirroring `chain_core::packer::Codec`'s
`put_u16`/`put_u32` and `mempack::ReadBuf`'s `get_u16`/`get_u32`.  Machine
integers are `Nat` with explicit bounds.  Fallible decoding returns
`Except ReadError`; serialization to an in-memory vector returns
`Except WriteError` mirroring the `std::io::Result` plumbing of the source
(where writing to a `Vec<u8>` never fails).

Cryptographic leaf types (hashes, public keys, signatures, VRF proofs) are
fixed-width opaque byte vectors at the codec layer.  Proof verification,
whose cryptographic primitives live outside the given sources, is modelled
separately in the `Verif` namespace with symbolic signatures.
-/

/-- Errors produced while decoding, mirroring `chain_core::mempack::ReadError`
(the crate itself is not under src/; the variants used by the header decoder
are modelled from the spec's error taxonomy). -/
inductive ReadError
  | NotEnoughBytes
  | StructureInvalid (msg : String)
  | UnknownTag (tag : Nat)
  | UnconsumedData
deriving DecidableEq, Repr

/-- Errors produced while writing; modelling `std::io::Error`.  Writing to an
in-memory `Vec<u8>` never produces one, so no constructor is ever used by the
serializers below, but the type keeps the `Result` plumbing of the source. -/
inductive WriteError
  | writeFailed
deriving DecidableEq, Repr

/-- Big-endian encoding of a 16-bit value, as `Codec::put_u16`. -/
def putU16 (v : Nat) : List Nat :=
  [v / 256, v % 256]

/-- Big-endian encoding of a 32-bit value, as `Codec::put_u32`. -/
def putU32 (v : Nat) : List Nat :=
  [v / 2 ^ 24, v / 2 ^ 16 % 256, v / 2 ^ 8 % 256, v % 256]

/-- Big-endian read of a 16-bit value, as `ReadBuf::get_u16`. -/
def getU16 : List Nat → Except ReadError (Nat × List Nat)
  | b0 :: b1 :: rest => .ok (b0 * 256 + b1, rest)
  | _ => .error .NotEnoughBytes

/-- Big-endian read of a 32-bit value, as `ReadBuf::get_u32`. -/
def getU32 : List Nat → Except ReadError (Nat × List Nat)
  | b0 :: b1 :: b2 :: b3 :: rest =>
      .ok (b0 * 2 ^ 24 + b1 * 2 ^ 16 + b2 * 2 ^ 8 + b3, rest)
  | _ => .error .NotEnoughBytes

/-- Read exactly `n` bytes from the buffer (`ReadBuf::get_slice` and the
`Readable` instance for fixed-size byte arrays). -/
def readFixed (n : Nat) (bs : List Nat) : Except ReadError (List Nat × List Nat) :=
  if n ≤ bs.length then .ok (bs.take n, bs.drop n) else .error .NotEnoughBytes

/-- Writing bytes to the in-memory vector writer; `Write for Vec<u8>` always
succeeds (`write_all` on a growable in-memory buffer). -/
def vecWrite (acc : List Nat) (bytes : List Nat) : Except WriteError (List Nat) :=
  .ok (acc ++ bytes)

theorem bindOk {ε α β : Type} (a : α) (f : α → Except ε β) :
    (Except.ok a : Except ε α) >>= f = f a := rfl

theorem bindError {ε α β : Type} (e : ε) (f : α → Except ε β) :
    (Except.error e : Except ε α) >>= f = .error e := rfl

theorem getU16_putU16 (v : Nat) (hv : v < 2 ^ 16) (rest : List Nat) :
    getU16 (putU16 v ++ rest) = .ok (v, rest) := by
  have hdm : v / 256 * 256 + v % 256 = v := by omega
  simp only [putU16, List.cons_append, List.nil_append, getU16, hdm]

theorem getU32_putU32 (v : Nat) (hv : v < 2 ^ 32) (rest : List Nat) :
    getU32 (putU32 v ++ rest) = .ok (v, rest) := by
  have hdm : v / 2 ^ 24 * 2 ^ 24 + v / 2 ^ 16 % 256 * 2 ^ 16 + v / 2 ^ 8 % 256 * 2 ^ 8 +
      v % 256 = v := by omega
  simp only [putU32, List.cons_append, List.nil_append, getU32, hdm]

theorem readFixed_append (xs rest : List Nat) :
    readFixed xs.length (xs ++ rest) = .ok (xs, rest) := by
  simp [readFixed, List.take_left, List.drop_left]

theorem putU16_length (v : Nat) : (putU16 v).length = 2 := rfl

theorem putU32_length (v : Nat) : (putU32 v).length = 4 := rfl

/-- Size in bytes of a `Hash` (a Blake2b-256 digest in `crate::key`). -/
def HASH_SIZE : Nat := 32

/-- Size in bytes of a serialized Ed25519(Extended) public key. -/
def PUBLIC_KEY_SIZE : Nat := 32

/-- Size in bytes of a serialized `Signature<T, Ed25519Extended>`. -/
def ED25519_SIGNATURE_SIZE : Nat := 64

/-- Size in bytes of a serialized `Signature<T, FakeMMM>` (KES signature). -/
def KES_SIGNATURE_SIZE : Nat := 64

/-- Size in bytes of a serialized `genesis::GenesisPraosId`. -/
def PRAOS_ID_SIZE : Nat := 32

/-- Size of `<Curve25519_2HashDH as VerifiableRandomFunction>::VERIFIED_RANDOM_SIZE`. -/
def VERIFIED_RANDOM_SIZE : Nat := 96

/-- Cryptographic digest value (`crate::key::Hash`), an opaque fixed-width
byte vector at the codec layer. -/
structure Hash where
  bytes : List Nat
deriving DecidableEq, Repr

/-- Well-formedness of a `Hash`: in Rust this is enforced by the type
(a fixed-size array of `u8`). -/
def Hash.WF (h : Hash) : Prop :=
  h.bytes.length = HASH_SIZE ∧ ∀ b ∈ h.bytes, b < 256

instance (h : Hash) : Decidable h.WF := by unfold Hash.WF; infer_instance

/-- Readable instance for `Hash`: takes the fixed number of digest bytes. -/
def Hash.read (bs : List Nat) : Except ReadError (Hash × List Nat) :=
  match readFixed HASH_SIZE bs with
  | .ok (b, rest) => .ok (⟨b⟩, rest)
  | .error e => .error e

theorem Hash.hash_read_append (h : Hash) (hwf : h.WF) (rest : List Nat) :
    Hash.read (h.bytes ++ rest) = .ok (h, rest) := by
  have hlen : h.bytes.length = HASH_SIZE := hwf.1
  unfold Hash.read
  rw [← hlen, readFixed_append]

/-- Block date (`crate::date::BlockDate`): an epoch and a slot identifier,
both 32-bit. -/
structure BlockDate where
  epoch : Nat
  slot_id : Nat
deriving DecidableEq, Repr

/-- Number of blocks between a block and the genesis block
(`ChainLength(pub u32)`). -/
structure ChainLength where
  val : Nat
deriving DecidableEq, Repr

/-- Supported block versions (`crate::block::version::BlockVersion`). -/
inductive BlockVersion
  | Genesis
  | Ed25519Signed
  | KesVrfproof
deriving DecidableEq, Repr

/-- Block version as read from the wire
(`crate::block::version::AnyBlockVersion`): a supported version or the raw
unsupported tag. -/
inductive AnyBlockVersion
  | Supported (v : BlockVersion)
  | Unsupported (raw : Nat)
deriving DecidableEq, Repr

/-- Modelled from the spec: the `From<u16>` conversion of `AnyBlockVersion`
lives in `block/version.rs`, which is not under src/.  The spec fixes the
mapping: tag 0 is `Genesis`, tag 1 is `Ed25519Signed`, tag 2 is
`KesVrfproof`, any other value is `Unsupported(raw)`. -/
def AnyBlockVersion.ofU16 (raw : Nat) : AnyBlockVersion :=
  if raw = 0 then .Supported .Genesis
  else if raw = 1 then .Supported .Ed25519Signed
  else if raw = 2 then .Supported .KesVrfproof
  else .Unsupported raw

/-- Modelled from the spec: the `Into<u16>` conversion of `AnyBlockVersion`
(`block/version.rs`, not under src/), inverse of `AnyBlockVersion.ofU16` on
supported versions. -/
def AnyBlockVersion.toU16 : AnyBlockVersion → Nat
  | .Supported .Genesis => 0
  | .Supported .Ed25519Signed => 1
  | .Supported .KesVrfproof => 2
  | .Unsupported raw => raw

/-- Well-formedness of a version value: its tag fits in 16 bits and survives
the wire round trip (in Rust the raw tag is a `u16` and `Unsupported` is only
ever built from tags outside 0..2). -/
def AnyBlockVersion.WF (v : AnyBlockVersion) : Prop :=
  v.toU16 < 2 ^ 16 ∧ AnyBlockVersion.ofU16 v.toU16 = v

instance (v : AnyBlockVersion) : Decidable v.WF := by
  unfold AnyBlockVersion.WF; infer_instance

/-- Common part of a block header (`Common` in header.rs): version, date,
content size, content hash, parent hash and chain length. -/
structure Common where
  any_block_version : AnyBlockVersion
  block_date : BlockDate
  block_content_size : Nat
  block_content_hash : Hash
  block_parent_hash : Hash
  chain_length : ChainLength
deriving DecidableEq, Repr

/-- Well-formedness of `Common`: every numeric field fits its Rust machine
width and the hashes are well-formed, all facts that in Rust are carried by
the types (`u16`, `u32`, fixed-size arrays). -/
def Common.WF (c : Common) : Prop :=
  c.any_block_version.WF ∧
  c.block_content_size < 2 ^ 32 ∧
  c.block_date.epoch < 2 ^ 32 ∧
  c.block_date.slot_id < 2 ^ 32 ∧
  c.chain_length.val < 2 ^ 32 ∧
  c.block_content_hash.WF ∧
  c.block_parent_hash.WF

instance (c : Common) : Decidable c.WF := by unfold Common.WF; infer_instance

/-- Serialization of `Common` (`impl property::Serialize for Common`),
mirroring the sequence of fallible `Codec` writes of the source: version tag,
content size, epoch, slot id, chain length, content hash, parent hash. -/
def Common.serialize (c : Common) (acc : List Nat) : Except WriteError (List Nat) := do
  let acc ← vecWrite acc (putU16 c.any_block_version.toU16)
  let acc ← vecWrite acc (putU32 c.block_content_size)
  let acc ← vecWrite acc (putU32 c.block_date.epoch)
  let acc ← vecWrite acc (putU32 c.block_date.slot_id)
  let acc ← vecWrite acc (putU32 c.chain_length.val)
  let acc ← vecWrite acc c.block_content_hash.bytes
  let acc ← vecWrite acc c.block_parent_hash.bytes
  .ok acc

/-- Explicit byte layout of a serialized `Common`, stated by the spec:
16-bit version tag, 32-bit content size, 32-bit epoch, 32-bit slot id,
32-bit chain length, content-hash bytes, parent-hash bytes, big-endian. -/
def Common.serializeBytes (c : Common) : List Nat :=
  putU16 c.any_block_version.toU16 ++
  putU32 c.block_content_size ++
  putU32 c.block_date.epoch ++
  putU32 c.block_date.slot_id ++
  putU32 c.chain_length.val ++
  c.block_content_hash.bytes ++
  c.block_parent_hash.bytes

theorem Common.common_serialize_eq (c : Common) (acc : List Nat) :
    Common.serialize c acc = .ok (acc ++ c.serializeBytes) := by
  simp only [Common.serialize, Common.serializeBytes, vecWrite, bindOk, List.append_assoc]

/-- Decoding of `Common` (`impl Readable for Common`): the same fields in the
same order as serialization. -/
def Common.read (bs : List Nat) : Except ReadError (Common × List Nat) := do
  let (tagRaw, bs) ← getU16 bs
  let any_block_version := AnyBlockVersion.ofU16 tagRaw
  let (block_content_size, bs) ← getU32 bs
  let (epoch, bs) ← getU32 bs
  let (slot_id, bs) ← getU32 bs
  let (chainLen, bs) ← getU32 bs
  let (block_content_hash, bs) ← Hash.read bs
  let (block_parent_hash, bs) ← Hash.read bs
  .ok ({ any_block_version := any_block_version
         block_date := ⟨epoch, slot_id⟩
         block_content_size := block_content_size
         block_content_hash := block_content_hash
         block_parent_hash := block_parent_hash
         chain_length := ⟨chainLen⟩ }, bs)

theorem Common.common_read_serializeBytes (c : Common) (hwf : c.WF) (rest : List Nat) :
    Common.read (c.serializeBytes ++ rest) = .ok (c, rest) := by
  obtain ⟨⟨hv16, hvrt⟩, hsize, hepoch, hslot, hlen, hch, hph⟩ := hwf
  simp only [Common.serializeBytes, List.append_assoc, Common.read,
    getU16_putU16 _ hv16, getU32_putU32 _ hsize, getU32_putU32 _ hepoch,
    getU32_putU32 _ hslot, getU32_putU32 _ hlen, Hash.hash_read_append _ hch,
    Hash.hash_read_append _ hph, bindOk, hvrt]

/-- BFT leader identifier (`bft::LeaderId`), wrapping an Ed25519(Extended)
public key; opaque bytes at the codec layer. -/
structure LeaderId where
  bytes : List Nat
deriving DecidableEq, Repr

def LeaderId.WF (l : LeaderId) : Prop :=
  l.bytes.length = PUBLIC_KEY_SIZE ∧ ∀ b ∈ l.bytes, b < 256

instance (l : LeaderId) : Decidable l.WF := by unfold LeaderId.WF; infer_instance

/-- BFT signature bytes (`BftSignature(Signature<HeaderToSign, Ed25519Extended>)`). -/
structure BftSignature where
  bytes : List Nat
deriving DecidableEq, Repr

def BftSignature.WF (s : BftSignature) : Prop :=
  s.bytes.length = ED25519_SIGNATURE_SIZE ∧ ∀ b ∈ s.bytes, b < 256

instance (s : BftSignature) : Decidable s.WF := by
  unfold BftSignature.WF; infer_instance

/-- BFT proof: leader identity plus signature over `Common` (`BftProof`). -/
structure BftProof where
  leader_id : LeaderId
  signature : BftSignature
deriving DecidableEq, Repr

def BftProof.WF (p : BftProof) : Prop :=
  p.leader_id.WF ∧ p.signature.WF

instance (p : BftProof) : Decidable p.WF := by unfold BftProof.WF; infer_instance

/-- Genesis-Praos identifier (`genesis::GenesisPraosId`); opaque fixed-width
bytes at the codec layer. -/
structure GenesisPraosId where
  bytes : List Nat
deriving DecidableEq, Repr

def GenesisPraosId.WF (g : GenesisPraosId) : Prop :=
  g.bytes.length = PRAOS_ID_SIZE ∧ ∀ b ∈ g.bytes, b < 256

instance (g : GenesisPraosId) : Decidable g.WF := by
  unfold GenesisPraosId.WF; infer_instance

/-- VRF verified-random output
(`<Curve25519_2HashDH as VerifiableRandomFunction>::VerifiedRandom`),
carried as its fixed-width byte encoding (`to_bytes`). -/
structure VerifiedRandom where
  bytes : List Nat
deriving DecidableEq, Repr

def VerifiedRandom.WF (v : VerifiedRandom) : Prop :=
  v.bytes.length = VERIFIED_RANDOM_SIZE ∧ ∀ b ∈ v.bytes, b < 256

instance (v : VerifiedRandom) : Decidable v.WF := by
  unfold VerifiedRandom.WF; infer_instance

/-- Modelled from the spec: `VerifiedRandom::from_bytes_unverified` lives in
chain-crypto, which is not under src/.  The spec says a malformed VRF-proof
encoding fails an internal well-formedness check before verification is
attempted; modelled as validity of the fixed-width byte encoding. -/
def VerifiedRandom.from_bytes_unverified (bs : List Nat) : Option VerifiedRandom :=
  if bs.length = VERIFIED_RANDOM_SIZE ∧ ∀ b ∈ bs, b < 256 then some ⟨bs⟩ else none

/-- KES signature bytes (`KESSignature(Signature<HeaderToSign, FakeMMM>)`). -/
structure KESSignature where
  bytes : List Nat
deriving DecidableEq, Repr

def KESSignature.WF (s : KESSignature) : Prop :=
  s.bytes.length = KES_SIGNATURE_SIZE ∧ ∀ b ∈ s.bytes, b < 256

instance (s : KESSignature) : Decidable s.WF := by
  unfold KESSignature.WF; infer_instance

/-- Genesis-Praos proof (`GenesisPraosProof`): praos identifier, VRF proof
and KES signature. -/
structure GenesisPraosProof where
  genesis_praos_id : GenesisPraosId
  vrf_proof : VerifiedRandom
  kes_proof : KESSignature
deriving DecidableEq, Repr

def GenesisPraosProof.WF (p : GenesisPraosProof) : Prop :=
  p.genesis_praos_id.WF ∧ p.vrf_proof.WF ∧ p.kes_proof.WF

instance (p : GenesisPraosProof) : Decidable p.WF := by
  unfold GenesisPraosProof.WF; infer_instance

/-- Proof of the block header (`enum Proof`): no proof, a BFT proof, or a
Genesis-Praos proof. -/
inductive Proof
  | None
  | Bft (p : BftProof)
  | GenesisPraos (p : GenesisPraosProof)
deriving DecidableEq, Repr

def Proof.WF : Proof → Prop
  | .None => True
  | .Bft p => p.WF
  | .GenesisPraos p => p.WF

instance (p : Proof) : Decidable p.WF := by
  unfold Proof.WF; cases p <;> infer_instance

/-- Block header (`struct Header`): common metadata plus proof. -/
structure Header where
  common : Common
  proof : Proof
deriving DecidableEq, Repr

/-- Coupling between the version tag of `Common` and the proof variant:
`Genesis` pairs with `Proof.None`, `Ed25519Signed` with `Proof.Bft`,
`KesVrfproof` with `Proof.GenesisPraos`. -/
def Header.versionProofMatch (h : Header) : Bool :=
  match h.common.any_block_version, h.proof with
  | .Supported .Genesis, .None => true
  | .Supported .Ed25519Signed, .Bft _ => true
  | .Supported .KesVrfproof, .GenesisPraos _ => true
  | _, _ => false

/-- Well-formedness of a `Header` (a valid header in the sense of the spec):
common metadata well-formed, proof bytes of their fixed widths, and the
proof variant matching the version tag. -/
def Header.WF (h : Header) : Prop :=
  h.common.WF ∧ h.proof.WF ∧ h.versionProofMatch = true

instance (h : Header) : Decidable h.WF := by unfold Header.WF; infer_instance

/-- Serialization of a public key (`serialize_public_key` in `crate::key`,
not under src/): the raw key bytes written to the writer. -/
def serialize_public_key (bytes acc : List Nat) : Except WriteError (List Nat) :=
  vecWrite acc bytes

/-- Serialization of a signature (`serialize_signature` in `crate::key`,
not under src/): the raw signature bytes written to the writer. -/
def serialize_signature (bytes acc : List Nat) : Except WriteError (List Nat) :=
  vecWrite acc bytes

/-- Deserialization of a public key (`deserialize_public_key` in
`crate::key`, not under src/): takes the fixed number of key bytes. -/
def deserialize_public_key (bs : List Nat) : Except ReadError (List Nat × List Nat) :=
  readFixed PUBLIC_KEY_SIZE bs

/-- Deserialization of a signature (`deserialize_signature` in `crate::key`,
not under src/), generic over the scheme's signature size: takes the fixed
number of signature bytes. -/
def deserialize_signature (size : Nat) (bs : List Nat) :
    Except ReadError (List Nat × List Nat) :=
  readFixed size bs

/-- Serialization of `GenesisPraosId` (`genesis.rs`, not under src/): the raw
identifier bytes. -/
def GenesisPraosId.serialize (g : GenesisPraosId) (acc : List Nat) :
    Except WriteError (List Nat) :=
  vecWrite acc g.bytes

/-- Readable instance of `GenesisPraosId` (`genesis.rs`, not under src/):
takes the fixed number of identifier bytes. -/
def GenesisPraosId.read (bs : List Nat) : Except ReadError (GenesisPraosId × List Nat) :=
  match readFixed PRAOS_ID_SIZE bs with
  | .ok (b, rest) => .ok (⟨b⟩, rest)
  | .error e => .error e

/-- Serialization of `Header` (`impl property::Serialize for Header`):
`Common` followed by the proof trailer, whose shape depends on the variant —
nothing for `None`; public key then signature for `Bft`; praos identifier,
fixed-width VRF-proof bytes, then KES signature for `GenesisPraos`. -/
def Header.serialize (h : Header) (acc : List Nat) : Except WriteError (List Nat) := do
  let acc ← Common.serialize h.common acc
  match h.proof with
  | .None => .ok acc
  | .Bft bft_proof => do
      let acc ← serialize_public_key bft_proof.leader_id.bytes acc
      let acc ← serialize_signature bft_proof.signature.bytes acc
      .ok acc
  | .GenesisPraos genesis_praos_proof => do
      let acc ← GenesisPraosId.serialize genesis_praos_proof.genesis_praos_id acc
      let acc ← vecWrite acc genesis_praos_proof.vrf_proof.bytes
      let acc ← serialize_signature genesis_praos_proof.kes_proof.bytes acc
      .ok acc

/-- Explicit byte layout of a serialized `Header`: the `Common` bytes
followed by the proof trailer bytes. -/
def Header.serializeBytes (h : Header) : List Nat :=
  h.common.serializeBytes ++
  match h.proof with
  | .None => []
  | .Bft bft_proof => bft_proof.leader_id.bytes ++ bft_proof.signature.bytes
  | .GenesisPraos gp =>
      gp.genesis_praos_id.bytes ++ gp.vrf_proof.bytes ++ gp.kes_proof.bytes

theorem Header.header_serialize_eq (h : Header) (acc : List Nat) :
    Header.serialize h acc = .ok (acc ++ h.serializeBytes) := by
  cases h with
  | mk common proof =>
    cases proof <;>
      simp only [Header.serialize, Header.serializeBytes, Common.common_serialize_eq, bindOk,
        serialize_public_key, serialize_signature, GenesisPraosId.serialize, vecWrite,
        List.append_assoc, List.append_nil]

/-- Decoding of `Header` (`impl Readable for Header`): read `Common`, then
dispatch on the version tag to read the matching proof trailer; an
unsupported tag is an `UnknownTag` error carrying the raw value. -/
def Header.read (bs : List Nat) : Except ReadError (Header × List Nat) := do
  let (common, bs) ← Common.read bs
  match common.any_block_version with
  | .Supported .Genesis => .ok ({ common := common, proof := .None }, bs)
  | .Supported .Ed25519Signed => do
      let (pk, bs) ← deserialize_public_key bs
      let (sig, bs) ← deserialize_signature ED25519_SIGNATURE_SIZE bs
      .ok ({ common := common
             proof := .Bft { leader_id := ⟨pk⟩, signature := ⟨sig⟩ } }, bs)
  | .Supported .KesVrfproof => do
      let (genesis_praos_id, bs) ← GenesisPraosId.read bs
      let (vrfBytes, bs) ← readFixed VERIFIED_RANDOM_SIZE bs
      let vrf_proof ← match VerifiedRandom.from_bytes_unverified vrfBytes with
        | some v => Except.ok v
        | none => Except.error (.StructureInvalid "VRF Proof")
      let (kes, bs) ← deserialize_signature KES_SIGNATURE_SIZE bs
      .ok ({ common := common
             proof := .GenesisPraos
               { genesis_praos_id := genesis_praos_id
                 vrf_proof := vrf_proof
                 kes_proof := ⟨kes⟩ } }, bs)
  | .Unsupported version => .error (.UnknownTag version)

/-- Modelled from the spec: `read_from_raw` (chain-core mempack, not under
src/) decodes a whole value from a raw byte slice; decoding that leaves
trailing bytes is a structural error — the spec requires a tag whose trailer
does not match to fail rather than be coerced or silently truncated. -/
def Header.readFromRaw (bs : List Nat) : Except ReadError Header :=
  match Header.read bs with
  | .ok (h, []) => .ok h
  | .ok (_, _ :: _) => .error .UnconsumedData
  | .error e => .error e

theorem readFixed_exact (n : Nat) (xs rest : List Nat) (hlen : xs.length = n) :
    readFixed n (xs ++ rest) = .ok (xs, rest) := by
  subst hlen; exact readFixed_append xs rest

theorem readFixed_all (n : Nat) (xs : List Nat) (hlen : xs.length = n) :
    readFixed n xs = .ok (xs, []) := by
  subst hlen
  simp [readFixed]

theorem GenesisPraosId.praos_id_read_append (g : GenesisPraosId) (hwf : g.WF) (rest : List Nat) :
    GenesisPraosId.read (g.bytes ++ rest) = .ok (g, rest) := by
  unfold GenesisPraosId.read
  rw [readFixed_exact _ _ _ hwf.1]

theorem VerifiedRandom.from_bytes_unverified_bytes (v : VerifiedRandom) (hwf : v.WF) :
    VerifiedRandom.from_bytes_unverified v.bytes = some v := by
  have h : v.bytes.length = VERIFIED_RANDOM_SIZE ∧ ∀ b ∈ v.bytes, b < 256 := hwf
  unfold VerifiedRandom.from_bytes_unverified
  rw [if_pos h]

theorem Common.common_read_serializeBytes_nil (c : Common) (hwf : c.WF) :
    Common.read c.serializeBytes = .ok (c, []) := by
  have h := Common.common_read_serializeBytes c hwf []
  simpa using h

theorem versionProofMatch_none (common : Common)
    (hmatch : Header.versionProofMatch ⟨common, .None⟩ = true) :
    common.any_block_version = .Supported .Genesis := by
  revert hmatch
  unfold Header.versionProofMatch
  cases hv : common.any_block_version with
  | Supported v => cases v <;> simp
  | Unsupported r => simp

theorem versionProofMatch_bft (common : Common) (bp : BftProof)
    (hmatch : Header.versionProofMatch ⟨common, .Bft bp⟩ = true) :
    common.any_block_version = .Supported .Ed25519Signed := by
  revert hmatch
  unfold Header.versionProofMatch
  cases hv : common.any_block_version with
  | Supported v => cases v <;> simp
  | Unsupported r => simp

theorem versionProofMatch_praos (common : Common) (gp : GenesisPraosProof)
    (hmatch : Header.versionProofMatch ⟨common, .GenesisPraos gp⟩ = true) :
    common.any_block_version = .Supported .KesVrfproof := by
  revert hmatch
  unfold Header.versionProofMatch
  cases hv : common.any_block_version with
  | Supported v => cases v <;> simp
  | Unsupported r => simp

theorem Header.header_read_serializeBytes (h : Header) (hwf : h.WF) :
    Header.read h.serializeBytes = .ok (h, []) := by
  obtain ⟨hcwf, hpwf, hmatch⟩ := hwf
  cases h with
  | mk common proof =>
    cases proof with
    | None =>
      have hv := versionProofMatch_none common hmatch
      simp only [Header.serializeBytes, Header.read, List.append_nil,
        Common.common_read_serializeBytes_nil common hcwf, bindOk, hv]
    | Bft bp =>
      have hv := versionProofMatch_bft common bp hmatch
      obtain ⟨⟨hpklen, _⟩, ⟨hsiglen, _⟩⟩ := hpwf
      simp only [Header.serializeBytes, List.append_assoc, Header.read,
        Common.common_read_serializeBytes common hcwf, bindOk, hv,
        deserialize_public_key, deserialize_signature,
        readFixed_exact _ _ _ hpklen, readFixed_all _ _ hsiglen]
    | GenesisPraos gp =>
      have hv := versionProofMatch_praos common gp hmatch
      obtain ⟨hid, hvrf, hkes⟩ := hpwf
      simp only [Header.serializeBytes, List.append_assoc, Header.read,
        Common.common_read_serializeBytes common hcwf, bindOk, hv,
        GenesisPraosId.praos_id_read_append _ hid,
        readFixed_exact _ _ _ hvrf.1,
        VerifiedRandom.from_bytes_unverified_bytes _ hvrf,
        deserialize_signature, readFixed_all _ _ hkes.1]

/-- Increment of the chain length (`impl property::ChainLength for
ChainLength`): the source computes `self.0 + 1` on a `u32` with no explicit
overflow handling, so at `u32::MAX` the addition overflows — wrapping to 0
in release builds (the semantics modelled here) and panicking in debug
builds. -/
def ChainLength.next (c : ChainLength) : ChainLength :=
  ⟨(c.val + 1) % 2 ^ 32⟩

/-- Modelled from the spec: `Hash::hash_bytes` (crate::key, not under src/)
is a cryptographic digest onto a fixed-width hash.  No claim depends on the
digest values, so it is modelled as a deterministic mixing function onto
well-formed 32-byte vectors. -/
def Hash.hash_bytes (bs : List Nat) : Hash :=
  ⟨(List.range HASH_SIZE).map fun i => bs.foldl (fun a b => (a * 31 + b + 1) % 256) i⟩

/-- Serialization of a header into a fresh in-memory vector
(`Serialize::serialize_as_vec`). -/
def Header.serialize_as_vec (h : Header) : Except WriteError (List Nat) :=
  Header.serialize h []

/-- Hash of a header (`Header::hash`): the digest of the bytes of
`serialize_as_vec`.  The source unwraps the serialization `Result`; the
`Option` models that unwrap, with `none` standing for the panic. -/
def Header.hash (h : Header) : Option Hash :=
  match h.serialize_as_vec with
  | .ok bytes => some (Hash.hash_bytes bytes)
  | .error _ => none

/-- Raw serialized header (`HeaderRaw(Vec<u8>)` in headerraw.rs, not under
src/): the header bytes behind the outer length-prefixed framing. -/
structure HeaderRaw where
  bytes : List Nat
deriving DecidableEq, Repr

/-- Modelled from the spec: the outer framing (headerraw.rs, not under src/)
prefixes the raw header bytes with a 16-bit length — the two size bytes that
`Header::hash` explicitly excludes. -/
def HeaderRaw.serializeBytes (r : HeaderRaw) : List Nat :=
  putU16 r.bytes.length ++ r.bytes

/-- Conversion to the raw form (`Header::to_raw`):
`serialize_as_vec().map(HeaderRaw)`. -/
def Header.to_raw (h : Header) : Except WriteError HeaderRaw :=
  match h.serialize_as_vec with
  | .ok bytes => .ok ⟨bytes⟩
  | .error e => .error e

theorem Header.serialize_as_vec_eq (h : Header) :
    h.serialize_as_vec = .ok h.serializeBytes := by
  unfold Header.serialize_as_vec
  rw [Header.header_serialize_eq]
  simp

theorem getU32_of_length (bs : List Nat) (h : 4 ≤ bs.length) :
    ∃ v rest, getU32 bs = .ok (v, rest) ∧ rest.length + 4 = bs.length := by
  cases bs with
  | nil => simp at h
  | cons b0 t0 =>
    cases t0 with
    | nil => simp at h
    | cons b1 t1 =>
      cases t1 with
      | nil => simp at h
      | cons b2 t2 =>
        cases t2 with
        | nil => simp at h
        | cons b3 rest =>
          refine ⟨_, rest, rfl, ?_⟩
          simp

theorem Hash.read_of_length (bs : List Nat) (h : HASH_SIZE ≤ bs.length) :
    Hash.read bs = .ok (⟨bs.take HASH_SIZE⟩, bs.drop HASH_SIZE) := by
  unfold Hash.read readFixed
  rw [if_pos h]

theorem Common.read_putU16 (t : Nat) (ht : t < 2 ^ 16) (body : List Nat)
    (hlen : 80 ≤ body.length) :
    ∃ c rest, Common.read (putU16 t ++ body) = .ok (c, rest) ∧
      c.any_block_version = AnyBlockVersion.ofU16 t := by
  obtain ⟨sz, b1, h1, hl1⟩ := getU32_of_length body (by omega)
  obtain ⟨ep, b2, h2, hl2⟩ := getU32_of_length b1 (by omega)
  obtain ⟨sl, b3, h3, hl3⟩ := getU32_of_length b2 (by omega)
  obtain ⟨cl, b4, h4, hl4⟩ := getU32_of_length b3 (by omega)
  have hb4 : HASH_SIZE ≤ b4.length := by unfold HASH_SIZE; omega
  have hb5 : HASH_SIZE ≤ (b4.drop HASH_SIZE).length := by
    simp only [List.length_drop]
    unfold HASH_SIZE at hb4 ⊢
    omega
  have h5 := Hash.read_of_length b4 hb4
  have h6 := Hash.read_of_length (b4.drop HASH_SIZE) hb5
  refine ⟨{ any_block_version := AnyBlockVersion.ofU16 t
            block_date := ⟨ep, sl⟩
            block_content_size := sz
            block_content_hash := ⟨b4.take HASH_SIZE⟩
            block_parent_hash := ⟨(b4.drop HASH_SIZE).take HASH_SIZE⟩
            chain_length := ⟨cl⟩ },
          (b4.drop HASH_SIZE).drop HASH_SIZE, ?_, rfl⟩
  simp only [Common.read, getU16_putU16 t ht, bindOk, h1, h2, h3, h4, h5, h6]

theorem Header.read_versionProofMatch (bs : List Nat) (h : Header) (rest : List Nat)
    (hread : Header.read bs = .ok (h, rest)) : h.versionProofMatch = true := by
  unfold Header.read at hread
  cases hc : Common.read bs with
  | error e => rw [hc] at hread; exact absurd hread (by simp [bindError])
  | ok cb =>
    obtain ⟨c, bs1⟩ := cb
    rw [hc] at hread
    simp only [bindOk] at hread
    cases hv : c.any_block_version with
    | Supported v =>
      cases v with
      | Genesis =>
        rw [hv] at hread
        simp only [Except.ok.injEq, Prod.mk.injEq] at hread
        obtain ⟨hh, -⟩ := hread
        subst hh
        simp [Header.versionProofMatch, hv]
      | Ed25519Signed =>
        rw [hv] at hread
        cases hpk : deserialize_public_key bs1 with
        | error e => rw [hpk] at hread; exact absurd hread (by simp [bindError])
        | ok pkp =>
          obtain ⟨pk, bs2⟩ := pkp
          rw [hpk] at hread
          simp only [bindOk] at hread
          cases hsig : deserialize_signature ED25519_SIGNATURE_SIZE bs2 with
          | error e => rw [hsig] at hread; exact absurd hread (by simp [bindError])
          | ok sigp =>
            obtain ⟨sig, bs3⟩ := sigp
            rw [hsig] at hread
            simp only [bindOk, Except.ok.injEq, Prod.mk.injEq] at hread
            obtain ⟨hh, -⟩ := hread
            subst hh
            simp [Header.versionProofMatch, hv]
      | KesVrfproof =>
        rw [hv] at hread
        cases hid : GenesisPraosId.read bs1 with
        | error e => rw [hid] at hread; exact absurd hread (by simp [bindError])
        | ok idp =>
          obtain ⟨gid, bs2⟩ := idp
          rw [hid] at hread
          simp only [bindOk] at hread
          cases hvrfb : readFixed VERIFIED_RANDOM_SIZE bs2 with
          | error e => rw [hvrfb] at hread; exact absurd hread (by simp [bindError])
          | ok vrfp =>
            obtain ⟨vrfBytes, bs3⟩ := vrfp
            rw [hvrfb] at hread
            simp only [bindOk] at hread
            cases hvrf : VerifiedRandom.from_bytes_unverified vrfBytes with
            | none => rw [hvrf] at hread; exact absurd hread (by simp [bindError])
            | some vrf =>
              rw [hvrf] at hread
              simp only [bindOk] at hread
              cases hkes : deserialize_signature KES_SIGNATURE_SIZE bs3 with
              | error e => rw [hkes] at hread; exact absurd hread (by simp [bindError])
              | ok kesp =>
                obtain ⟨kes, bs4⟩ := kesp
                rw [hkes] at hread
                simp only [bindOk, Except.ok.injEq, Prod.mk.injEq] at hread
                obtain ⟨hh, -⟩ := hread
                subst hh
                simp [Header.versionProofMatch, hv]
    | Unsupported r =>
      rw [hv] at hread
      exact absurd hread (by simp [bindError])

theorem Header.readFromRaw_versionProofMatch (bs : List Nat) (h : Header)
    (hread : Header.readFromRaw bs = .ok h) : h.versionProofMatch = true := by
  unfold Header.readFromRaw at hread
  cases hr : Header.read bs with
  | error e => rw [hr] at hread; exact absurd hread (by simp [bindError])
  | ok p =>
    obtain ⟨h', rest⟩ := p
    rw [hr] at hread
    cases rest with
    | nil =>
      simp only [Except.ok.injEq] at hread
      subst hread
      exact Header.read_versionProofMatch bs h' [] hr
    | cons x xs => exact absurd hread (by simp [bindError])

theorem Header.readFromRaw_unconsumed (bs : List Nat) (h : Header) (rest : List Nat)
    (hread : Header.read bs = .ok (h, rest)) (hne : rest ≠ []) :
    Header.readFromRaw bs = .error .UnconsumedData := by
  unfold Header.readFromRaw
  rw [hread]
  cases rest with
  | nil => exact absurd rfl hne
  | cons x xs => rfl

theorem Common.serializeBytes_injective (c c' : Common) (hc : c.WF) (hc' : c'.WF)
    (h : c.serializeBytes = c'.serializeBytes) : c = c' := by
  have h1 := Common.common_read_serializeBytes_nil c hc
  have h2 := Common.common_read_serializeBytes_nil c' hc'
  rw [h] at h1
  rw [h1] at h2
  simpa using h2

namespace Verif

/-- Verification outcome (`chain_crypto::Verification`). -/
inductive Verification
  | Success
  | Failed
deriving DecidableEq, Repr

/-- Modelled from the spec: signature over the header-to-sign
(`BftSignature(Signature<HeaderToSign, Ed25519Extended>)`); the Ed25519
scheme lives in chain-crypto, not under src/.  Symbolic model: a signature
value records the key pair that produced it and the exact message bytes it
signs, so that it verifies exactly against that pair's public key over those
bytes. -/
structure BftSignature where
  signer : Nat
  message : List Nat
deriving DecidableEq, Repr

/-- BFT leader identifier (`bft::LeaderId`), wrapping a public key; in the
symbolic model a public key is the identifier of its key pair. -/
structure LeaderId where
  pk : Nat
deriving DecidableEq, Repr

/-- BFT proof (`BftProof`): leader identity plus signature. -/
structure BftProof where
  leader_id : LeaderId
  signature : BftSignature
deriving DecidableEq, Repr

/-- Genesis-Praos proof (`GenesisPraosProof`) at the verification layer; its
components are opaque here because the source's verification arm never
inspects them before aborting. -/
structure GenesisPraosProof where
  genesis_praos_id : Nat
  vrf_proof : Nat
  kes_proof : Nat
deriving DecidableEq, Repr

/-- Proof of the block header (`enum Proof`) at the verification layer. -/
inductive Proof
  | None
  | Bft (p : BftProof)
  | GenesisPraos (p : GenesisPraosProof)
deriving DecidableEq, Repr

/-- Block header (`struct Header`) at the verification layer. -/
structure Header where
  common : Common
  proof : Proof
deriving DecidableEq, Repr

/-- Modelled from the spec: `verify_signature` (crate::key, not under src/)
serializes the typed message — here the `Common` header-to-sign — and
verifies the signature over exactly those canonical bytes against the given
public key.  In the symbolic model this succeeds iff the signature records
that key pair and exactly those bytes. -/
def verify_signature (sig : BftSignature) (pk : Nat) (c : Common) : Verification :=
  if sig.signer = pk ∧ sig.message = c.serializeBytes then .Success else .Failed

/-- Signature generation (`Signature::generate` over a serializable value,
chain-crypto, not under src/): the symbolic signature of key pair `sk` over
the canonical bytes of `c`. -/
def sign (sk : Nat) (c : Common) : BftSignature :=
  ⟨sk, c.serializeBytes⟩

/-- Proof verification (`Header::verify_proof`): `Proof::None` succeeds
unconditionally; `Proof::Bft` delegates to `verify_signature` with the
proof's signature, the leader's public key and the header's `Common`;
the `Proof::GenesisPraos` arm of the source is `unimplemented!()` — it
panics before producing any `Verification` — modelled as `none`. -/
def Header.verify_proof (h : Header) : Option Verification :=
  match h.proof with
  | .None => some .Success
  | .Bft bft_proof =>
      some (verify_signature bft_proof.signature bft_proof.leader_id.pk h.common)
  | .GenesisPraos _ => none

end Verif

/-- Stake key identifier (`crate::stake::StakeKeyId`, not under src/),
wrapping a public key; opaque fixed-width bytes at the codec layer. -/
structure StakeKeyId where
  bytes : List Nat
deriving DecidableEq, Repr

def StakeKeyId.WF (k : StakeKeyId) : Prop :=
  k.bytes.length = PUBLIC_KEY_SIZE ∧ ∀ b ∈ k.bytes, b < 256

instance (k : StakeKeyId) : Decidable k.WF := by unfold StakeKeyId.WF; infer_instance

/-- Stake pool identifier (`crate::stake::StakePoolId`, not under src/);
opaque fixed-width bytes at the codec layer. -/
structure StakePoolId where
  bytes : List Nat
deriving DecidableEq, Repr

def StakePoolId.WF (p : StakePoolId) : Prop :=
  p.bytes.length = PUBLIC_KEY_SIZE ∧ ∀ b ∈ p.bytes, b < 256

instance (p : StakePoolId) : Decidable p.WF := by unfold StakePoolId.WF; infer_instance

def StakeKeyId.serializeBytes (k : StakeKeyId) : List Nat := k.bytes

/-- Deserialization of a `StakeKeyId` (stake.rs, not under src/): takes the
fixed number of identifier bytes from the stream. -/
def StakeKeyId.deserialize (bs : List Nat) : Except ReadError (StakeKeyId × List Nat) :=
  match readFixed PUBLIC_KEY_SIZE bs with
  | .ok (b, rest) => .ok (⟨b⟩, rest)
  | .error e => .error e

def StakePoolId.serializeBytes (p : StakePoolId) : List Nat := p.bytes

/-- Deserialization of a `StakePoolId` (stake.rs, not under src/): takes the
fixed number of identifier bytes from the stream. -/
def StakePoolId.deserialize (bs : List Nat) : Except ReadError (StakePoolId × List Nat) :=
  match readFixed PUBLIC_KEY_SIZE bs with
  | .ok (b, rest) => .ok (⟨b⟩, rest)
  | .error e => .error e

theorem StakeKeyId.stake_key_id_deserialize_append (k : StakeKeyId) (hwf : k.WF) (rest : List Nat) :
    StakeKeyId.deserialize (k.bytes ++ rest) = .ok (k, rest) := by
  unfold StakeKeyId.deserialize
  rw [readFixed_exact _ _ _ hwf.1]

theorem StakePoolId.stake_pool_id_deserialize_append (p : StakePoolId) (hwf : p.WF) (rest : List Nat) :
    StakePoolId.deserialize (p.bytes ++ rest) = .ok (p, rest) := by
  unfold StakePoolId.deserialize
  rw [readFixed_exact _ _ _ hwf.1]

/-- Stake key registration certificate payload (`StakeKeyRegistration`). -/
structure StakeKeyRegistration where
  stake_key_id : StakeKeyId
deriving DecidableEq, Repr

/-- Stake key deregistration certificate payload (`StakeKeyDeregistration`). -/
structure StakeKeyDeregistration where
  stake_key_id : StakeKeyId
deriving DecidableEq, Repr

/-- Stake delegation certificate payload (`StakeDelegation`). -/
structure StakeDelegation where
  stake_key_id : StakeKeyId
  pool_id : StakePoolId
deriving DecidableEq, Repr

/-- Stake pool registration certificate payload (`StakePoolRegistration`). -/
structure StakePoolRegistration where
  pool_id : StakePoolId
deriving DecidableEq, Repr

/-- Stake pool retirement certificate payload (`StakePoolRetirement`). -/
structure StakePoolRetirement where
  pool_id : StakePoolId
deriving DecidableEq, Repr

/-- Serialization of `StakeKeyRegistration`: the stake key identifier. -/
def StakeKeyRegistration.serializeBytes (r : StakeKeyRegistration) : List Nat :=
  r.stake_key_id.serializeBytes

/-- Deserialization of `StakeKeyRegistration`: reads the stake key identifier. -/
def StakeKeyRegistration.deserialize (bs : List Nat) :
    Except ReadError (StakeKeyRegistration × List Nat) :=
  match StakeKeyId.deserialize bs with
  | .ok (k, rest) => .ok (⟨k⟩, rest)
  | .error e => .error e

/-- Serialization of `StakeKeyDeregistration`: the stake key identifier. -/
def StakeKeyDeregistration.serializeBytes (r : StakeKeyDeregistration) : List Nat :=
  r.stake_key_id.serializeBytes

/-- Deserialization of `StakeKeyDeregistration`: reads the stake key identifier. -/
def StakeKeyDeregistration.deserialize (bs : List Nat) :
    Except ReadError (StakeKeyDeregistration × List Nat) :=
  match StakeKeyId.deserialize bs with
  | .ok (k, rest) => .ok (⟨k⟩, rest)
  | .error e => .error e

/-- Serialization of `StakeDelegation`: stake key identifier then pool
identifier, in that order. -/
def StakeDelegation.serializeBytes (d : StakeDelegation) : List Nat :=
  d.stake_key_id.serializeBytes ++ d.pool_id.serializeBytes

/-- Deserialization of `StakeDelegation`: reads the stake key identifier then
the pool identifier. -/
def StakeDelegation.deserialize (bs : List Nat) :
    Except ReadError (StakeDelegation × List Nat) :=
  match StakeKeyId.deserialize bs with
  | .ok (k, rest) =>
      match StakePoolId.deserialize rest with
      | .ok (p, rest') => .ok (⟨k, p⟩, rest')
      | .error e => .error e
  | .error e => .error e

/-- Serialization of `StakePoolRegistration`: the pool identifier. -/
def StakePoolRegistration.serializeBytes (r : StakePoolRegistration) : List Nat :=
  r.pool_id.serializeBytes

/-- Deserialization of `StakePoolRegistration`: reads the pool identifier. -/
def StakePoolRegistration.deserialize (bs : List Nat) :
    Except ReadError (StakePoolRegistration × List Nat) :=
  match StakePoolId.deserialize bs with
  | .ok (p, rest) => .ok (⟨p⟩, rest)
  | .error e => .error e

/-- Serialization of `StakePoolRetirement`: the pool identifier. -/
def StakePoolRetirement.serializeBytes (r : StakePoolRetirement) : List Nat :=
  r.pool_id.serializeBytes

/-- Deserialization of `StakePoolRetirement`: reads the pool identifier. -/
def StakePoolRetirement.deserialize (bs : List Nat) :
    Except ReadError (StakePoolRetirement × List Nat) :=
  match StakePoolId.deserialize bs with
  | .ok (p, rest) => .ok (⟨p⟩, rest)
  | .error e => .error e

/-- Private key (`crate::key::PrivateKey`, not under src/); symbolic, named
by its key pair. -/
structure PrivateKey where
  sk : Nat
deriving DecidableEq, Repr

/-- Modelled from the spec: the detached signature produced by
`PrivateKey::serialize_and_sign` (crate::key, not under src/); the spec says
it covers the canonical bytes of the payload, so the symbolic value records
the key pair and exactly those bytes. -/
structure SigValue where
  signer : Nat
  message : List Nat
deriving DecidableEq, Repr

/-- Signed envelope (`Signed<T>` in crate::key): the payload and a signature
over its canonical bytes. -/
structure Signed (T : Type) where
  data : T
  sig : SigValue
deriving DecidableEq, Repr

/-- Signing of a payload's canonical bytes
(`PrivateKey::serialize_and_sign`). -/
def serialize_and_sign (k : PrivateKey) (payloadBytes : List Nat) : SigValue :=
  ⟨k.sk, payloadBytes⟩

/-- Envelope type abbreviations, fixing the payload types before the
`Message` constructors shadow their names. -/
abbrev SignedStakeKeyRegistration := Signed StakeKeyRegistration

abbrev SignedStakeKeyDeregistration := Signed StakeKeyDeregistration

abbrev SignedStakeDelegation := Signed StakeDelegation

abbrev SignedStakePoolRegistration := Signed StakePoolRegistration

abbrev SignedStakePoolRetirement := Signed StakePoolRetirement

/-- Block-body message wrapper (`crate::block::Message`, not under src/):
each certificate kind maps to exactly one variant. -/
inductive Message
  | StakeKeyRegistration (s : Signed StakeKeyRegistration)
  | StakeKeyDeregistration (s : Signed StakeKeyDeregistration)
  | StakeDelegation (s : Signed StakeDelegation)
  | StakePoolRegistration (s : Signed StakePoolRegistration)
  | StakePoolRetirement (s : Signed StakePoolRetirement)
deriving DecidableEq, Repr

/-- Certificate construction for a stake key registration
(`StakeKeyRegistration::make_certificate`): sign the canonical payload bytes
and wrap payload and signature in the message variant. -/
def StakeKeyRegistration.make_certificate (r : StakeKeyRegistration)
    (stake_private_key : PrivateKey) : Message :=
  .StakeKeyRegistration ⟨r, serialize_and_sign stake_private_key r.serializeBytes⟩

/-- Certificate construction for a stake key deregistration
(`StakeKeyDeregistration::make_certificate`). -/
def StakeKeyDeregistration.make_certificate (r : StakeKeyDeregistration)
    (stake_private_key : PrivateKey) : Message :=
  .StakeKeyDeregistration ⟨r, serialize_and_sign stake_private_key r.serializeBytes⟩

/-- Certificate construction for a stake delegation
(`StakeDelegation::make_certificate`). -/
def StakeDelegation.make_certificate (d : StakeDelegation)
    (stake_private_key : PrivateKey) : Message :=
  .StakeDelegation ⟨d, serialize_and_sign stake_private_key d.serializeBytes⟩

/-- Certificate construction for a stake pool registration
(`StakePoolRegistration::make_certificate`). -/
def StakePoolRegistration.make_certificate (r : StakePoolRegistration)
    (pool_private_key : PrivateKey) : Message :=
  .StakePoolRegistration ⟨r, serialize_and_sign pool_private_key r.serializeBytes⟩

/-- Certificate construction for a stake pool retirement
(`StakePoolRetirement::make_certificate`). -/
def StakePoolRetirement.make_certificate (r : StakePoolRetirement)
    (pool_private_key : PrivateKey) : Message :=
  .StakePoolRetirement ⟨r, serialize_and_sign pool_private_key r.serializeBytes⟩

/-- Unwrapping of the stake-key-registration variant of `Message`. -/
def Message.asStakeKeyRegistration : Message → Option SignedStakeKeyRegistration
  | .StakeKeyRegistration s => some s
  | _ => none

/-- Unwrapping of the stake-key-deregistration variant of `Message`. -/
def Message.asStakeKeyDeregistration : Message → Option SignedStakeKeyDeregistration
  | .StakeKeyDeregistration s => some s
  | _ => none

/-- Unwrapping of the stake-delegation variant of `Message`. -/
def Message.asStakeDelegation : Message → Option SignedStakeDelegation
  | .StakeDelegation s => some s
  | _ => none

/-- Unwrapping of the stake-pool-registration variant of `Message`. -/
def Message.asStakePoolRegistration : Message → Option SignedStakePoolRegistration
  | .StakePoolRegistration s => some s
  | _ => none

/-- Unwrapping of the stake-pool-retirement variant of `Message`. -/
def Message.asStakePoolRetirement : Message → Option SignedStakePoolRetirement
  | .StakePoolRetirement s => some s
  | _ => none

theorem StakeKeyId.stake_key_id_deserialize_all (k : StakeKeyId) (hwf : k.WF) :
    StakeKeyId.deserialize k.bytes = .ok (k, []) := by
  unfold StakeKeyId.deserialize
  rw [readFixed_all _ _ hwf.1]

theorem StakePoolId.stake_pool_id_deserialize_all (p : StakePoolId) (hwf : p.WF) :
    StakePoolId.deserialize p.bytes = .ok (p, []) := by
  unfold StakePoolId.deserialize
  rw [readFixed_all _ _ hwf.1]

/-- Sample digest value used by the witness theorems. -/
def zeroHash : Hash := ⟨List.replicate HASH_SIZE 0⟩

/-- Sample genesis-version `Common` used by the witness theorems. -/
def sampleCommon : Common :=
  { any_block_version := .Supported .Genesis
    block_date := ⟨0, 0⟩
    block_content_size := 0
    block_content_hash := zeroHash
    block_parent_hash := zeroHash
    chain_length := ⟨0⟩ }

/-- Sample genesis header used by the witness theorems. -/
def sampleGenesisHeader : Header := ⟨sampleCommon, .None⟩

/-- Sample BFT-version `Common` used by the witness theorems. -/
def sampleBftCommon : Common :=
  { any_block_version := .Supported .Ed25519Signed
    block_date := ⟨3, 4⟩
    block_content_size := 5
    block_content_hash := zeroHash
    block_parent_hash := zeroHash
    chain_length := ⟨6⟩ }

/-- Sample BFT header used by the witness theorems. -/
def sampleBftHeader : Header :=
  ⟨sampleBftCommon,
   .Bft ⟨⟨List.replicate PUBLIC_KEY_SIZE 1⟩, ⟨List.replicate ED25519_SIGNATURE_SIZE 2⟩⟩⟩

/-- C2: for every valid `Header` value `h` — one whose proof variant matches
its version tag and whose fields fit their machine widths — the serializer
produces the canonical bytes of `h` and decoding those bytes yields exactly
`h`, consuming them all: `decode(encode(h)) == h`. -/
theorem claim_C2_header_roundtrip (h : Header) (hwf : h.WF) :
    Header.serialize h [] = .ok h.serializeBytes ∧
    Header.readFromRaw h.serializeBytes = .ok h := by
  constructor
  · rw [Header.header_serialize_eq]
    simp
  · unfold Header.readFromRaw
    rw [Header.header_read_serializeBytes h hwf]

theorem claim_C2_witness :
    sampleBftHeader.WF ∧
    Header.serialize sampleBftHeader [] = .ok sampleBftHeader.serializeBytes ∧
    Header.readFromRaw sampleBftHeader.serializeBytes = .ok sampleBftHeader :=
  ⟨by decide, claim_C2_header_roundtrip sampleBftHeader (by decide)⟩

/-- C4: every header produced by decoding satisfies the tag/variant coupling
(Genesis pairs with `Proof.None`, Ed25519Signed with `Proof.Bft`, KesVrfproof
with `Proof.GenesisPraos`), and a byte stream whose trailer does not match
its tag — leaving bytes unconsumed after the tag-directed trailer — fails
with a structural error rather than being coerced. -/
theorem claim_C4_tag_variant_coupling :
    (∀ bs h, Header.readFromRaw bs = .ok h → h.versionProofMatch = true) ∧
    (∀ bs h rest, Header.read bs = .ok (h, rest) → rest ≠ [] →
      Header.readFromRaw bs = .error .UnconsumedData) :=
  ⟨fun bs h hr => Header.readFromRaw_versionProofMatch bs h hr,
   fun bs h rest hr hne => Header.readFromRaw_unconsumed bs h rest hr hne⟩

theorem claim_C4_witness :
    Header.versionProofMatch sampleGenesisHeader = true ∧
    Header.readFromRaw (sampleGenesisHeader.serializeBytes ++ [0]) =
      .error .UnconsumedData :=
  ⟨claim_C4_tag_variant_coupling.1 sampleGenesisHeader.serializeBytes
     sampleGenesisHeader (by rfl),
   claim_C4_tag_variant_coupling.2 (sampleGenesisHeader.serializeBytes ++ [0])
     sampleGenesisHeader [0] (by rfl) (by decide)⟩

/-- C5: decoding a header byte stream whose 16-bit version tag is an
unrecognized value fails with an unsupported-version error carrying that raw
numeric tag, and no partial header is returned. -/
theorem claim_C5_unknown_tag (t : Nat) (body : List Nat)
    (ht : t < 2 ^ 16) (hun : AnyBlockVersion.ofU16 t = .Unsupported t)
    (hlen : 80 ≤ body.length) :
    Header.read (putU16 t ++ body) = .error (.UnknownTag t) ∧
    Header.readFromRaw (putU16 t ++ body) = .error (.UnknownTag t) := by
  obtain ⟨c, rest, hcr, hcv⟩ := Common.read_putU16 t ht body hlen
  have hr : Header.read (putU16 t ++ body) = .error (.UnknownTag t) := by
    unfold Header.read
    rw [hcr]
    simp only [bindOk]
    rw [hcv, hun]
  refine ⟨hr, ?_⟩
  unfold Header.readFromRaw
  rw [hr]

theorem claim_C5_witness :
    99 < 2 ^ 16 ∧ AnyBlockVersion.ofU16 99 = .Unsupported 99 ∧
    Header.read (putU16 99 ++ List.replicate 80 0) = .error (.UnknownTag 99) :=
  ⟨by decide, by decide,
   (claim_C5_unknown_tag 99 (List.replicate 80 0) (by decide) (by decide)
     (by decide)).1⟩

/-- C6: the canonical encoding of every well-formed `Common` consists, in
order, of the 16-bit version tag, 32-bit content size, 32-bit epoch, 32-bit
slot id, 32-bit chain length, fixed-width content-hash bytes and fixed-width
parent-hash bytes, all integers big-endian; and decoding reads the same
fields in the same order, recovering the value. -/
theorem claim_C6_common_layout (c : Common) (hwf : c.WF) (rest : List Nat) :
    Common.serialize c [] =
      .ok (putU16 c.any_block_version.toU16 ++ putU32 c.block_content_size ++
        putU32 c.block_date.epoch ++ putU32 c.block_date.slot_id ++
        putU32 c.chain_length.val ++ c.block_content_hash.bytes ++
        c.block_parent_hash.bytes) ∧
    Common.read (putU16 c.any_block_version.toU16 ++ putU32 c.block_content_size ++
        putU32 c.block_date.epoch ++ putU32 c.block_date.slot_id ++
        putU32 c.chain_length.val ++ c.block_content_hash.bytes ++
        c.block_parent_hash.bytes ++ rest) = .ok (c, rest) := by
  constructor
  · have h := Common.common_serialize_eq c []
    simpa [Common.serializeBytes] using h
  · have h := Common.common_read_serializeBytes c hwf rest
    simpa [Common.serializeBytes, List.append_assoc] using h

theorem claim_C6_witness :
    sampleCommon.WF ∧
    Common.read (putU16 sampleCommon.any_block_version.toU16 ++
        putU32 sampleCommon.block_content_size ++
        putU32 sampleCommon.block_date.epoch ++
        putU32 sampleCommon.block_date.slot_id ++
        putU32 sampleCommon.chain_length.val ++
        sampleCommon.block_content_hash.bytes ++
        sampleCommon.block_parent_hash.bytes ++ [7]) = .ok (sampleCommon, [7]) :=
  ⟨by decide, (claim_C6_common_layout sampleCommon (by decide) [7]).2⟩

/-- C7 counterexample: at the maximum representable 32-bit value,
`ChainLength::next` does not yield `ChainLength (n + 1)` — the unchecked
`u32` addition wraps (release semantics; debug builds panic), so the claim
as stated fails at `n = 4294967295`. -/
theorem claim_C7_counterexample :
    ChainLength.next ⟨4294967295⟩ ≠ ⟨4294967295 + 1⟩ := by decide

/-- C7 amended: `ChainLength::next` yields `n + 1` for every `n` whose
successor is representable in 32 bits; at the maximum representable value the
unchecked addition wraps to 0 under the release-build semantics modelled
here (debug builds panic) — the source specifies no explicit wrap-or-fail
behavior at the boundary. -/
theorem claim_C7_next_increment (n : Nat) (h : n + 1 < 2 ^ 32) :
    ChainLength.next ⟨n⟩ = ⟨n + 1⟩ ∧ ChainLength.next ⟨2 ^ 32 - 1⟩ = ⟨0⟩ := by
  constructor
  · unfold ChainLength.next
    simp only [Nat.mod_eq_of_lt h]
  · decide

theorem claim_C7_witness :
    5 + 1 < 2 ^ 32 ∧ ChainLength.next ⟨5⟩ = ⟨6⟩ :=
  ⟨by decide, (claim_C7_next_increment 5 (by decide)).1⟩

/-- C9: for every header whose proof is the `None` variant, `verify_proof`
returns success unconditionally, whatever the `Common` fields are. -/
theorem claim_C9_none_always_valid (c : Common) :
    (Verif.Header.mk c .None).verify_proof = some .Success := rfl

/-- C1: for every header whose proof is the `GenesisPraos` variant, the
source's `verify_proof` reaches `unimplemented!()` and panics before
producing any `Verification` (modelled as `none`) — it performs none of the
three checks the claim describes. -/
theorem claim_C1_genesis_praos_unimplemented (c : Common) (p : Verif.GenesisPraosProof) :
    (Verif.Header.mk c (.GenesisPraos p)).verify_proof = none := rfl

/-- C3: for every header whose proof is the `Bft` variant, `verify_proof`
succeeds iff the signature verifies against the public key given by
`leader_id` over exactly the canonical serialized bytes of `Common`; any
altered signature fails, and the valid signature fails against any altered
well-formed `Common`. -/
theorem claim_C3_bft_verification (c : Common) (lid : Verif.LeaderId)
    (sig : Verif.BftSignature) :
    ((Verif.Header.mk c (.Bft ⟨lid, sig⟩)).verify_proof = some .Success ↔
      (sig.signer = lid.pk ∧ sig.message = c.serializeBytes)) ∧
    (∀ sig' : Verif.BftSignature, sig' ≠ Verif.sign lid.pk c →
      (Verif.Header.mk c (.Bft ⟨lid, sig'⟩)).verify_proof = some .Failed) ∧
    (∀ c' : Common, c.WF → c'.WF → c' ≠ c →
      (Verif.Header.mk c' (.Bft ⟨lid, Verif.sign lid.pk c⟩)).verify_proof =
        some .Failed) := by
  refine ⟨?_, ?_, ?_⟩
  · show some (Verif.verify_signature sig lid.pk c) = some .Success ↔ _
    unfold Verif.verify_signature
    split_ifs with hcond
    · simp [hcond]
    · simp [hcond]
  · intro sig' hne
    show some (Verif.verify_signature sig' lid.pk c) = some .Failed
    unfold Verif.verify_signature
    rw [if_neg]
    intro hcond
    apply hne
    obtain ⟨h1, h2⟩ := hcond
    cases sig' with
    | mk s m =>
      subst h1
      subst h2
      rfl
  · intro c' hc hc' hne
    show some (Verif.verify_signature (Verif.sign lid.pk c) lid.pk c') = some .Failed
    unfold Verif.verify_signature Verif.sign
    rw [if_neg]
    intro hcond
    exact hne (Common.serializeBytes_injective c' c hc' hc hcond.2.symm)

theorem claim_C3_witness :
    (Verif.Header.mk sampleCommon
      (.Bft ⟨⟨7⟩, Verif.sign 7 sampleCommon⟩)).verify_proof = some .Success :=
  (claim_C3_bft_verification sampleCommon ⟨7⟩ (Verif.sign 7 sampleCommon)).1.mpr
    ⟨rfl, rfl⟩

/-- C8: for each of the five certificate payload kinds, decoding the bytes
produced by encoding the payload yields the payload back, consuming all the
bytes; and the `data` field embedded in the `Signed` envelope produced by
`make_certificate` equals the original payload unchanged. -/
theorem claim_C8_certificate_roundtrip
    (kr : StakeKeyRegistration) (kd : StakeKeyDeregistration) (dl : StakeDelegation)
    (pr : StakePoolRegistration) (pt : StakePoolRetirement) (k : PrivateKey)
    (hkr : kr.stake_key_id.WF) (hkd : kd.stake_key_id.WF)
    (hdlk : dl.stake_key_id.WF) (hdlp : dl.pool_id.WF)
    (hpr : pr.pool_id.WF) (hpt : pt.pool_id.WF) :
    StakeKeyRegistration.deserialize kr.serializeBytes = .ok (kr, []) ∧
    StakeKeyDeregistration.deserialize kd.serializeBytes = .ok (kd, []) ∧
    StakeDelegation.deserialize dl.serializeBytes = .ok (dl, []) ∧
    StakePoolRegistration.deserialize pr.serializeBytes = .ok (pr, []) ∧
    StakePoolRetirement.deserialize pt.serializeBytes = .ok (pt, []) ∧
    (∃ s, (kr.make_certificate k).asStakeKeyRegistration = some s ∧ s.data = kr) ∧
    (∃ s, (kd.make_certificate k).asStakeKeyDeregistration = some s ∧ s.data = kd) ∧
    (∃ s, (dl.make_certificate k).asStakeDelegation = some s ∧ s.data = dl) ∧
    (∃ s, (pr.make_certificate k).asStakePoolRegistration = some s ∧ s.data = pr) ∧
    (∃ s, (pt.make_certificate k).asStakePoolRetirement = some s ∧ s.data = pt) := by
  refine ⟨?_, ?_, ?_, ?_, ?_,
    ⟨_, rfl, rfl⟩, ⟨_, rfl, rfl⟩, ⟨_, rfl, rfl⟩, ⟨_, rfl, rfl⟩, ⟨_, rfl, rfl⟩⟩
  · simp only [StakeKeyRegistration.deserialize, StakeKeyRegistration.serializeBytes,
      StakeKeyId.serializeBytes, StakeKeyId.stake_key_id_deserialize_all _ hkr]
  · simp only [StakeKeyDeregistration.deserialize, StakeKeyDeregistration.serializeBytes,
      StakeKeyId.serializeBytes, StakeKeyId.stake_key_id_deserialize_all _ hkd]
  · simp only [StakeDelegation.deserialize, StakeDelegation.serializeBytes,
      StakeKeyId.serializeBytes, StakePoolId.serializeBytes,
      StakeKeyId.stake_key_id_deserialize_append _ hdlk, StakePoolId.stake_pool_id_deserialize_all _ hdlp]
  · simp only [StakePoolRegistration.deserialize, StakePoolRegistration.serializeBytes,
      StakePoolId.serializeBytes, StakePoolId.stake_pool_id_deserialize_all _ hpr]
  · simp only [StakePoolRetirement.deserialize, StakePoolRetirement.serializeBytes,
      StakePoolId.serializeBytes, StakePoolId.stake_pool_id_deserialize_all _ hpt]

theorem claim_C8_witness :
    StakeDelegation.deserialize
        (StakeDelegation.mk ⟨List.replicate 32 3⟩ ⟨List.replicate 32 4⟩).serializeBytes =
      .ok (StakeDelegation.mk ⟨List.replicate 32 3⟩ ⟨List.replicate 32 4⟩, []) :=
  (claim_C8_certificate_roundtrip ⟨⟨List.replicate 32 3⟩⟩ ⟨⟨List.replicate 32 3⟩⟩
    ⟨⟨List.replicate 32 3⟩, ⟨List.replicate 32 4⟩⟩ ⟨⟨List.replicate 32 4⟩⟩
    ⟨⟨List.replicate 32 4⟩⟩ ⟨5⟩ (by decide) (by decide) (by decide) (by decide)
    (by decide) (by decide)).2.2.1

/-- C10: `Header::hash` is total — the internal serialization to the
in-memory vector always succeeds (so the unwrap in the source is
unreachable), the hash is the digest of exactly the canonical serialization
bytes of the whole header (which carry no outer length prefix: the raw
framing's 2-byte size prefix sits outside the hashed bytes), and two
structurally equal headers always hash to the same value. -/
theorem claim_C10_hash_total (h : Header) :
    h.serialize_as_vec = .ok h.serializeBytes ∧
    h.hash = some (Hash.hash_bytes h.serializeBytes) ∧
    h.to_raw = .ok ⟨h.serializeBytes⟩ ∧
    (∀ r, h.to_raw = .ok r → r.serializeBytes.drop 2 = h.serializeBytes) ∧
    (∀ h₂ : Header, h = h₂ → h.hash = h₂.hash) := by
  have hs := Header.serialize_as_vec_eq h
  refine ⟨hs, ?_, ?_, ?_, ?_⟩
  · unfold Header.hash
    rw [hs]
  · unfold Header.to_raw
    rw [hs]
  · intro r hr
    unfold Header.to_raw at hr
    rw [hs] at hr
    simp only [Except.ok.injEq] at hr
    subst hr
    simp [HeaderRaw.serializeBytes, putU16]
  · intro h₂ he
    rw [he]

theorem claim_C10_witness :
    sampleBftHeader.hash = some (Hash.hash_bytes sampleBftHeader.serializeBytes) ∧
    (HeaderRaw.mk sampleBftHeader.serializeBytes).serializeBytes.drop 2 =
      sampleBftHeader.serializeBytes ∧
    sampleBftHeader.hash = sampleBftHeader.hash :=
  ⟨(claim_C10_hash_total sampleBftHeader).2.1,
   (claim_C10_hash_total sampleBftHeader).2.2.2.1 ⟨sampleBftHeader.serializeBytes⟩
     (claim_C10_hash_total sampleBftHeader).2.2.1,
   (claim_C10_hash_total sampleBftHeader).2.2.2.2 sampleBftHeader rfl⟩
